import Mathlib

/-!
CI pipelines of payments-smart-contracts (`ci/e2e.go`, `ci/release.go`).

The two mage targets `E2e` and `Release` sequence external commands through
mage's `sh` package.  The embedding makes the outside world explicit:

* a `World` answers `os.Getenv` and decides the result of every command from
  the history of commands issued so far (so any deterministic behaviour of the
  external tools, including behaviour that depends on earlier commands, is an
  instance);
* every call into `sh` appends one `Cmd` to the `Trace`, recorded as the tool
  is run: `sh.Exec` first replaces `$name` and `${name}` in the command and in
  every argument (`os.Expand`), looking the name up in the injected
  environment and then in the process environment;
* a Go function `func F() error` becomes `World → Trace → Trace × result`.

Logging (`log.Info()`, `log.Error()`) has no effect on control flow and is not
modelled.  `os.Mkdir("./build", 0700)` is not a command and its result is
discarded by the code; it leaves the command trace unchanged.  Go strings are
modelled by `String` (sequences of Unicode characters).
-/

set_option autoImplicit false

/-! ## Data model -/

/-- A Go `error` value, identified with the text of its `Error()` method. -/
structure GoError where
  msg : String
  deriving DecidableEq, Repr

/-- One command run through mage's `sh` package: the injected environment
(`nil` for `sh.Run`, `sh.RunV` and `sh.Output`), the command name and its
arguments, as the tool receives them. -/
structure Cmd where
  env : List (String × String)
  name : String
  args : List String
  deriving DecidableEq, Repr

/-- The commands issued so far, oldest first. -/
abbrev Trace := List Cmd

/-- What an external command yields: its error (`none` is Go's `nil`) and the
text `sh.Output` returns for it. -/
structure Result where
  err : Option GoError
  out : String
  deriving DecidableEq, Repr

/-- The environment a pipeline runs in: the process environment variables and
the behaviour of the external commands as a function of the history. -/
structure World where
  getenv : String → String
  exec : Trace → Cmd → Result

/-- How a call of a Go function ends: it returns an `error` (possibly `nil`),
or it panics with a value. -/
inductive Outcome where
  | returned (err : Option GoError)
  | panicked (v : GoError)
  deriving DecidableEq, Repr

/-- A call failed: it returned a non-nil error or it panicked. -/
def Outcome.failed : Outcome → Bool
  | .returned none => false
  | .returned (some _) => true
  | .panicked _ => true

/-! ## Library functions used by the pipelines -/

/-- Go's `errors.New`. -/
def errors.New (text : String) : GoError := ⟨text⟩

/-- Go's `os.Getenv`: the value of the variable, `""` when it is absent. -/
def os.Getenv (w : World) (key : String) : String := w.getenv key

/-- Go's `isShellSpecialVar` (package `os`): the one-character shell variables. -/
def os.isShellSpecialVar (c : Char) : Bool :=
  ['*', '#', '$', '@', '!', '?', '-', '0', '1', '2', '3', '4', '5', '6', '7', '8', '9'].contains c

/-- Go's `isAlphaNum` (package `os`): underscore, ASCII digit or ASCII letter. -/
def os.isAlphaNum (c : Char) : Bool :=
  c == '_' || (decide ('0' ≤ c) && decide (c ≤ '9')) || (decide ('a' ≤ c) && decide (c ≤ 'z'))
    || (decide ('A' ≤ c) && decide (c ≤ 'Z'))

/-- Go's `getShellName` (package `os`), for the text `s` that follows a `$`:
the variable name and how many characters of `s` the reference takes.  After
an opening brace the name runs to the closing brace (an empty or unclosed
brace is bad syntax and gives the empty name with a positive width); a special
variable is one character; otherwise the name is the leading run of
alphanumerics. -/
def os.getShellName (s : List Char) : List Char × Nat :=
  match s with
  | [] => ([], 0)
  | c :: t =>
    if c = Char.ofNat 0x7B then
      if (match t with
          | v :: d :: _ => os.isShellSpecialVar v && d == Char.ofNat 0x7D
          | _ => false) then (t.take 1, 3)
      else if t.indexOf (Char.ofNat 0x7D) < t.length then
        (if t.indexOf (Char.ofNat 0x7D) = 0 then ([], 2)
         else (t.take (t.indexOf (Char.ofNat 0x7D)), t.indexOf (Char.ofNat 0x7D) + 2))
      else ([], 1)
    else if os.isShellSpecialVar c then ([c], 1)
    else ((c :: t).takeWhile os.isAlphaNum, ((c :: t).takeWhile os.isAlphaNum).length)

/-- The loop of Go's `os.Expand`: a `$` that is not the last character starts
a reference, which is replaced by the value of its name (dropped when the
syntax is bad, kept as `$` when no name follows); every other character is
copied.  `fuel` bounds the number of steps. -/
def os.expandLoop (mapping : String → String) : Nat → List Char → List Char
  | 0, s => s
  | _ + 1, [] => []
  | fuel + 1, c :: rest =>
    if c = '$' ∧ rest ≠ [] then
      (if (os.getShellName rest).1 = [] ∧ 0 < (os.getShellName rest).2 then []
       else if (os.getShellName rest).1 = [] then ['$']
       else (mapping ⟨(os.getShellName rest).1⟩).data)
        ++ os.expandLoop mapping fuel (rest.drop (os.getShellName rest).2)
    else c :: os.expandLoop mapping fuel rest

/-- Go's `os.Expand(s, mapping)`. -/
def os.Expand (s : String) (mapping : String → String) : String :=
  ⟨os.expandLoop mapping s.data.length s.data⟩

/-- Go's `unicode.IsSpace`: the Latin-1 spaces `\t \n \v \f \r`, space, U+0085,
U+00A0, and beyond Latin-1 the code points with the White_Space property. -/
def unicode.IsSpace (r : Char) : Bool :=
  let n := r.toNat
  if n ≤ 0xFF then
    n == 0x09 || n == 0x0A || n == 0x0B || n == 0x0C || n == 0x0D || n == 0x20
      || n == 0x85 || n == 0xA0
  else
    n == 0x1680 || (0x2000 ≤ n && n ≤ 0x200A) || n == 0x2028 || n == 0x2029
      || n == 0x202F || n == 0x205F || n == 0x3000

/-- Go's `strings.TrimSpace`: the string without its leading and trailing
white space (as `unicode.IsSpace` defines it). -/
def strings.TrimSpace (s : String) : String :=
  ⟨(s.data.dropWhile unicode.IsSpace).rdropWhile unicode.IsSpace⟩

/-- The loop of Go's `genSplit` for a non-empty separator: cut at the leftmost
occurrence of `sep`, continue behind it.  `acc` holds (reversed) the characters
of the current piece; `fuel` bounds the number of steps. -/
def strings.splitLoop (sep : List Char) : Nat → List Char → List Char → List (List Char)
  | 0, acc, s => [acc.reverse ++ s]
  | _ + 1, acc, [] => [acc.reverse]
  | fuel + 1, acc, c :: cs =>
    if sep.isPrefixOf (c :: cs) then
      acc.reverse :: strings.splitLoop sep fuel [] ((c :: cs).drop sep.length)
    else
      strings.splitLoop sep fuel (c :: acc) cs

/-- Go's `strings.Split(s, sep)`: the pieces of `s` between the occurrences of
`sep`; with an empty `sep` the string is split into its characters. -/
def strings.Split (s sep : String) : List String :=
  if sep.data = [] then s.data.map (fun c => String.mk [c])
  else (strings.splitLoop sep.data (s.data.length + 1) [] s.data).map String.mk

/-- The loop of `fmt.Sprintf` for formats whose only verb is `%v` applied to
strings, with one operand per verb: a `%v` is replaced by the next operand,
other characters are copied. -/
def fmt.sprintfLoop : List Char → List String → List Char
  | [], _ => []
  | '%' :: 'v' :: rest, a :: as => a.data ++ fmt.sprintfLoop rest as
  | c :: rest, as => c :: fmt.sprintfLoop rest as

/-- Go's `fmt.Sprintf`, for string operands formatted with `%v`. -/
def fmt.Sprintf (format : String) (operands : List String) : String :=
  ⟨fmt.sprintfLoop format.data operands⟩

/-- The expansion that `sh.Exec` applies to the command and to each argument:
`os.Expand` with a mapping that looks a name up in the injected environment
`env` first and in the process environment otherwise. -/
def sh.expand (w : World) (env : List (String × String)) (s : String) : String :=
  os.Expand s (fun name =>
    match env.lookup name with
    | some v => v
    | none => os.Getenv w name)

/-- The command that `sh.Exec(env, _, _, cmd, args...)` runs: command and
arguments expanded, `env` injected as given. -/
def sh.command (w : World) (env : List (String × String)) (cmd : String)
    (args : List String) : Cmd :=
  ⟨env, sh.expand w env cmd, args.map (sh.expand w env)⟩

/-- The call `sh.Exec(env, stdout, stderr, cmd, args...)`, through which every
other function of `sh` runs its command: expands, runs, and yields the result. -/
def sh.Exec (w : World) (env : List (String × String)) (cmd : String)
    (args : List String) (tr : Trace) : Trace × Result :=
  (tr ++ [sh.command w env cmd args], w.exec tr (sh.command w env cmd args))

/-- The call `sh.RunWith(env, cmd, args...)`: runs the command with `env`
injected into its environment and returns its error. -/
def sh.RunWith (w : World) (env : List (String × String)) (cmd : String)
    (args : List String) (tr : Trace) : Trace × Option GoError :=
  ((sh.Exec w env cmd args tr).1, (sh.Exec w env cmd args tr).2.err)

/-- The call `sh.Run(cmd, args...)`, which is `sh.RunWith(nil, cmd, args...)`. -/
def sh.Run (w : World) (cmd : String) (args : List String) (tr : Trace) :
    Trace × Option GoError :=
  sh.RunWith w [] cmd args tr

/-- The call `sh.RunV(cmd, args...)`: like `sh.Run`, with the command's
standard output always shown. -/
def sh.RunV (w : World) (cmd : String) (args : List String) (tr : Trace) :
    Trace × Option GoError :=
  ((sh.Exec w [] cmd args tr).1, (sh.Exec w [] cmd args tr).2.err)

/-- The call `sh.Output(cmd, args...)`: runs the command and returns what it
printed together with its error. -/
def sh.Output (w : World) (cmd : String) (args : List String) (tr : Trace) :
    Trace × String × Option GoError :=
  ((sh.Exec w [] cmd args tr).1, (sh.Exec w [] cmd args tr).2.out,
    (sh.Exec w [] cmd args tr).2.err)

/-- The call `mg.Deps(f)` in a fresh mage process: runs the dependency `f` once
and, when `f` returns an error, panics with `mg.Fatal` carrying the text of
that error.  The second component is the panic value, `none` when `mg.Deps`
returns. -/
def mg.Deps (f : Trace → Trace × Option GoError) (tr : Trace) : Trace × Option GoError :=
  match f tr with
  | (tr1, none) => (tr1, none)
  | (tr1, some err) => (tr1, some ⟨err.msg⟩)

/-! ## `ci/release.go` -/

/-- The function `installGhrIfNeeded` of `release.go`. -/
def ci.installGhrIfNeeded (w : World) (tr : Trace) : Trace × Option GoError :=
  match sh.Run w "command" ["-v", "ghr"] tr with
  | (tr1, none) => (tr1, none)
  | (tr1, some _) => sh.RunV w "go" ["get", "-u", "github.com/tcnksm/ghr"] tr1

/-- The statements of `Release` that follow `defer sh.RunV("docker-compose", "down")`,
up to the `return` that ends the function. -/
def ci.Release.steps (w : World) (tag token : String) (tr : Trace) : Trace × Option GoError :=
  match sh.RunV w "docker-compose" ["build", "psc"] tr with
  | (tr1, some err) => (tr1, some err)
  | (tr1, none) =>
    match sh.RunV w "docker-compose" ["up", "-d"] tr1 with
    | (tr2, some err) => (tr2, some err)
    | (tr2, none) =>
      match sh.Output w "docker"
          (strings.Split
            "ps -a --filter ancestor=payments-smart-contracts_psc --format \x7b\x7b.ID\x7d\x7d"
            " ") tr2 with
      | (tr3, _, some err) => (tr3, some err)
      | (tr3, o, none) =>
        match sh.RunV w "docker"
            (strings.Split
              (fmt.Sprintf "cp %v:/src/build/ ./build" [strings.TrimSpace o]) " ") tr3 with
        | (tr4, some err) => (tr4, some err)
        | (tr4, none) =>
          sh.RunWith w [("GITHUB_TOKEN", token)] "ghr" ["-replace", tag, "build/contracts/"] tr4

/-- The function `Release` of `release.go`.  Both configuration checks test
`tag`, as the source does; the deferred tear-down is registered after them and
runs when the function returns, its result discarded. -/
def ci.Release (w : World) (tr : Trace) : Trace × Outcome :=
  match mg.Deps (ci.installGhrIfNeeded w) tr with
  | (tr0, some v) => (tr0, .panicked v)
  | (tr0, none) =>
    let tag := os.Getenv w "BUILD_TAG"
    if tag = "" then (tr0, .returned (some (errors.New "no tag specified")))
    else
      let token := os.Getenv w "GITHUB_TOKEN"
      if tag = "" then (tr0, .returned (some (errors.New "no github token specified")))
      else
        let r := ci.Release.steps w tag token tr0
        ((sh.RunV w "docker-compose" ["down"] r.1).1, .returned r.2)

/-! ## `ci/e2e.go` -/

/-- The statements of `E2e` that follow `defer sh.RunV("docker-compose", "down")`. -/
def ci.E2e.steps (w : World) (tr : Trace) : Trace × Option GoError :=
  match sh.RunV w "docker-compose" ["up", "--build", "-d"] tr with
  | (tr1, some err) => (tr1, some err)
  | (tr1, none) =>
    match sh.RunV w "docker"
        (strings.Split
          "run --network payments-smart-contracts_default payments-smart-contracts_psc npm run e2e"
          " ") tr1 with
    | (tr2, some err) => (tr2, some err)
    | (tr2, none) => (tr2, none)

/-- The function `E2e` of `e2e.go`: the deferred tear-down runs when the
function returns, its result discarded. -/
def ci.E2e (w : World) (tr : Trace) : Trace × Option GoError :=
  let r := ci.E2e.steps w tr
  ((sh.RunV w "docker-compose" ["down"] r.1).1, r.2)

/-! ## Named commands -/

/-- The presence probe `command -v ghr`. -/
def probeCmd : Cmd := ⟨[], "command", ["-v", "ghr"]⟩

/-- The install command `go get -u github.com/tcnksm/ghr`. -/
def installCmd : Cmd := ⟨[], "go", ["get", "-u", "github.com/tcnksm/ghr"]⟩

/-- The tear-down command `docker-compose down`. -/
def downCmd : Cmd := ⟨[], "docker-compose", ["down"]⟩

/-- The build command `docker-compose build psc`. -/
def buildCmd : Cmd := ⟨[], "docker-compose", ["build", "psc"]⟩

/-- The start command `docker-compose up -d`. -/
def startCmd : Cmd := ⟨[], "docker-compose", ["up", "-d"]⟩

/-- The lookup command `docker ps -a --filter ancestor=... --format {{.ID}}`. -/
def lookupCmd : Cmd :=
  ⟨[], "docker", ["ps", "-a", "--filter", "ancestor=payments-smart-contracts_psc",
    "--format", "\x7b\x7b.ID\x7d\x7d"]⟩

/-- The copy command for the text `o` that the lookup returned: the arguments
are built as the source builds them and the command is what `sh` runs for
them. -/
def copyCmd (w : World) (o : String) : Cmd :=
  sh.command w [] "docker"
    (strings.Split (fmt.Sprintf "cp %v:/src/build/ ./build" [strings.TrimSpace o]) " ")

/-- The upload command: what `sh` runs for `ghr -replace <tag> build/contracts/`
with the credential injected. -/
def uploadCmd (w : World) (tag token : String) : Cmd :=
  sh.command w [("GITHUB_TOKEN", token)] "ghr" ["-replace", tag, "build/contracts/"]

/-- The bring-up command of `E2e`, `docker-compose up --build -d`. -/
def bringUpCmd : Cmd := ⟨[], "docker-compose", ["up", "--build", "-d"]⟩

/-- The test command of `E2e`. -/
def testCmd : Cmd :=
  ⟨[], "docker", ["run", "--network", "payments-smart-contracts_default",
    "payments-smart-contracts_psc", "npm", "run", "e2e"]⟩

/-- The five steps of `Release` between the configuration checks and the
tear-down, in order, for a run that reaches them with history `tr`; the copy
command is built from what the lookup prints in that run. -/
def releaseSteps (w : World) (tag token : String) (tr : Trace) : List Cmd :=
  [buildCmd, startCmd, lookupCmd,
    copyCmd w (w.exec (tr ++ [buildCmd, startCmd]) lookupCmd).out, uploadCmd w tag token]

/-- The result of step `i` of `steps` when it is issued right after the steps
before it, starting from history `tr`. -/
def stepResult (w : World) (tr : Trace) (steps : List Cmd) (i : Nat) : Option GoError :=
  match steps[i]? with
  | some c => (w.exec (tr ++ steps.take i) c).err
  | none => none

/-- A scripted world for concrete runs: the two configuration variables have
the given values, every command in `failing` fails with an error naming the
command, every other command succeeds, and every command prints `out`. -/
def scriptedWorld (tag token : String) (failing : List Cmd) (out : String) : World where
  getenv := fun key =>
    if key = "BUILD_TAG" then tag else if key = "GITHUB_TOKEN" then token else ""
  exec := fun _ c => ⟨if c ∈ failing then some ⟨c.name ++ " failed"⟩ else none, out⟩

/-! ## Evaluation lemmas -/

theorem expandLoop_plain (m : String → String) :
    ∀ (s : List Char) (fuel : Nat), '$' ∉ s → os.expandLoop m fuel s = s := by
  intro s
  induction s with
  | nil => intro fuel _; cases fuel <;> rfl
  | cons c rest ih =>
    intro fuel h
    cases fuel with
    | zero => rfl
    | succ k =>
      have hc : c ≠ '$' := fun hc => h (by simp [hc])
      have hr : '$' ∉ rest := fun hr => h (by simp [hr])
      simp only [os.expandLoop, hc, false_and, ↓reduceIte, ih k hr]

theorem expand_plain (w : World) (env : List (String × String)) (s : String)
    (h : '$' ∉ s.data) : sh.expand w env s = s := by
  unfold sh.expand os.Expand
  rw [expandLoop_plain _ _ _ h]

theorem command_plain (w : World) (env : List (String × String)) (cmd : String)
    (args : List String) (hc : '$' ∉ cmd.data) (ha : ∀ a ∈ args, '$' ∉ a.data) :
    sh.command w env cmd args = ⟨env, cmd, args⟩ := by
  unfold sh.command
  rw [expand_plain w env cmd hc]
  congr 1
  calc args.map (sh.expand w env) = args.map id :=
        List.map_congr_left (fun a hm => expand_plain w env a (ha a hm))
    _ = args := List.map_id args

theorem command_probe (w : World) : sh.command w [] "command" ["-v", "ghr"] = probeCmd :=
  command_plain w _ _ _ (by decide) (by decide)

theorem command_install (w : World) :
    sh.command w [] "go" ["get", "-u", "github.com/tcnksm/ghr"] = installCmd :=
  command_plain w _ _ _ (by decide) (by decide)

theorem command_down (w : World) : sh.command w [] "docker-compose" ["down"] = downCmd :=
  command_plain w _ _ _ (by decide) (by decide)

theorem command_build (w : World) :
    sh.command w [] "docker-compose" ["build", "psc"] = buildCmd :=
  command_plain w _ _ _ (by decide) (by decide)

theorem command_start (w : World) : sh.command w [] "docker-compose" ["up", "-d"] = startCmd :=
  command_plain w _ _ _ (by decide) (by decide)

theorem command_bringUp (w : World) :
    sh.command w [] "docker-compose" ["up", "--build", "-d"] = bringUpCmd :=
  command_plain w _ _ _ (by decide) (by decide)

theorem command_lookup (w : World) : sh.command w [] "docker" lookupCmd.args = lookupCmd :=
  command_plain w _ _ _ (by decide) (by decide)

theorem command_test (w : World) : sh.command w [] "docker" testCmd.args = testCmd :=
  command_plain w _ _ _ (by decide) (by decide)

theorem copyCmd_name (w : World) (o : String) : (copyCmd w o).name = "docker" :=
  expand_plain w [] "docker" (by decide)

theorem uploadCmd_name (w : World) (tag token : String) : (uploadCmd w tag token).name = "ghr" :=
  expand_plain w _ "ghr" (by decide)

theorem uploadCmd_eq (w : World) (tag token : String) :
    uploadCmd w tag token =
      ⟨[("GITHUB_TOKEN", token)], "ghr",
        ["-replace", sh.expand w [("GITHUB_TOKEN", token)] tag, "build/contracts/"]⟩ := by
  unfold uploadCmd sh.command
  rw [expand_plain w _ "ghr" (by decide)]
  simp only [List.map_cons, List.map_nil]
  rw [expand_plain w _ "-replace" (by decide), expand_plain w _ "build/contracts/" (by decide)]

theorem lookup_args_eq :
    strings.Split
      "ps -a --filter ancestor=payments-smart-contracts_psc --format \x7b\x7b.ID\x7d\x7d" " "
      = lookupCmd.args := by decide

theorem test_args_eq :
    strings.Split
      "run --network payments-smart-contracts_default payments-smart-contracts_psc npm run e2e"
      " " = testCmd.args := by decide

theorem E2e_steps_eq (w : World) (tr : Trace) :
    ci.E2e.steps w tr =
      match (w.exec tr bringUpCmd).err with
      | some e => (tr ++ [bringUpCmd], some e)
      | none => (tr ++ [bringUpCmd, testCmd], (w.exec (tr ++ [bringUpCmd]) testCmd).err) := by
  unfold ci.E2e.steps sh.RunV sh.Exec
  rw [test_args_eq]
  simp only [command_bringUp, command_test]
  show (match (tr ++ [bringUpCmd], (w.exec tr bringUpCmd).err) with
    | (tr1, some err) => (tr1, some err)
    | (tr1, none) =>
      match (tr1 ++ [testCmd], (w.exec tr1 testCmd).err) with
      | (tr2, some err) => (tr2, some err)
      | (tr2, none) => (tr2, none)) = _
  cases h1 : (w.exec tr bringUpCmd).err with
  | some e => simp
  | none =>
    cases h2 : (w.exec (tr ++ [bringUpCmd]) testCmd).err <;> simp [h2]

theorem E2e_eq (w : World) (tr : Trace) :
    ci.E2e w tr = ((ci.E2e.steps w tr).1 ++ [downCmd], (ci.E2e.steps w tr).2) := rfl

theorem installGhrIfNeeded_present (w : World) (tr : Trace)
    (h : (w.exec tr probeCmd).err = none) :
    ci.installGhrIfNeeded w tr = (tr ++ [probeCmd], none) := by
  unfold ci.installGhrIfNeeded sh.Run sh.RunWith sh.Exec
  simp only [command_probe]
  show (match (tr ++ [probeCmd], (w.exec tr probeCmd).err) with
    | (tr1, none) => (tr1, none)
    | (tr1, some _) => sh.RunV w "go" ["get", "-u", "github.com/tcnksm/ghr"] tr1) = _
  rw [h]

theorem installGhrIfNeeded_missing (w : World) (tr : Trace) (e : GoError)
    (h : (w.exec tr probeCmd).err = some e) :
    ci.installGhrIfNeeded w tr =
      (tr ++ [probeCmd, installCmd], (w.exec (tr ++ [probeCmd]) installCmd).err) := by
  unfold ci.installGhrIfNeeded sh.Run sh.RunWith sh.Exec
  simp only [command_probe]
  show (match (tr ++ [probeCmd], (w.exec tr probeCmd).err) with
    | (tr1, none) => (tr1, none)
    | (tr1, some _) => sh.RunV w "go" ["get", "-u", "github.com/tcnksm/ghr"] tr1) = _
  rw [h]
  simp [sh.RunV, sh.Exec, command_install]

theorem Release_deps_fail (w : World) (tr : Trace) (e : GoError)
    (h : (ci.installGhrIfNeeded w tr).2 = some e) :
    ci.Release w tr = ((ci.installGhrIfNeeded w tr).1, .panicked ⟨e.msg⟩) := by
  unfold ci.Release mg.Deps
  rcases hd : ci.installGhrIfNeeded w tr with ⟨t, r⟩
  rw [hd] at h
  simp only at h
  subst h
  rfl

theorem Release_no_tag (w : World) (tr : Trace)
    (h : (ci.installGhrIfNeeded w tr).2 = none) (htag : w.getenv "BUILD_TAG" = "") :
    ci.Release w tr =
      ((ci.installGhrIfNeeded w tr).1, .returned (some ⟨"no tag specified"⟩)) := by
  unfold ci.Release mg.Deps
  rcases hd : ci.installGhrIfNeeded w tr with ⟨t, r⟩
  rw [hd] at h
  simp only at h
  subst h
  simp [os.Getenv, htag, errors.New]

theorem Release_run (w : World) (tr : Trace)
    (h : (ci.installGhrIfNeeded w tr).2 = none) (htag : w.getenv "BUILD_TAG" ≠ "") :
    ci.Release w tr =
      ((ci.Release.steps w (w.getenv "BUILD_TAG") (w.getenv "GITHUB_TOKEN")
          (ci.installGhrIfNeeded w tr).1).1 ++ [downCmd],
        .returned (ci.Release.steps w (w.getenv "BUILD_TAG") (w.getenv "GITHUB_TOKEN")
          (ci.installGhrIfNeeded w tr).1).2) := by
  unfold ci.Release mg.Deps
  rcases hd : ci.installGhrIfNeeded w tr with ⟨t, r⟩
  rw [hd] at h
  simp only at h
  subst h
  simp [os.Getenv, htag, sh.RunV, sh.Exec, command_down]

theorem steps_unfold (w : World) (tag token : String) (tr : Trace) :
    ci.Release.steps w tag token tr =
      match (w.exec tr buildCmd).err with
      | some e => (tr ++ [buildCmd], some e)
      | none =>
        match (w.exec (tr ++ [buildCmd]) startCmd).err with
        | some e => (tr ++ [buildCmd, startCmd], some e)
        | none =>
          match (w.exec (tr ++ [buildCmd, startCmd]) lookupCmd).err with
          | some e => (tr ++ [buildCmd, startCmd, lookupCmd], some e)
          | none =>
            match (w.exec (tr ++ [buildCmd, startCmd, lookupCmd])
                (copyCmd w (w.exec (tr ++ [buildCmd, startCmd]) lookupCmd).out)).err with
            | some e =>
              (tr ++ [buildCmd, startCmd, lookupCmd,
                copyCmd w (w.exec (tr ++ [buildCmd, startCmd]) lookupCmd).out], some e)
            | none =>
              (tr ++ [buildCmd, startCmd, lookupCmd,
                  copyCmd w (w.exec (tr ++ [buildCmd, startCmd]) lookupCmd).out,
                  uploadCmd w tag token],
                (w.exec (tr ++ [buildCmd, startCmd, lookupCmd,
                  copyCmd w (w.exec (tr ++ [buildCmd, startCmd]) lookupCmd).out])
                  (uploadCmd w tag token)).err) := by
  unfold ci.Release.steps sh.RunV sh.Output sh.RunWith sh.Exec
  rw [lookup_args_eq]
  simp only [command_build, command_start, command_lookup]
  show (match (tr ++ [buildCmd], (w.exec tr buildCmd).err) with
    | (tr1, some err) => (tr1, some err)
    | (tr1, none) =>
      match (tr1 ++ [startCmd], (w.exec tr1 startCmd).err) with
      | (tr2, some err) => (tr2, some err)
      | (tr2, none) =>
        match (tr2 ++ [lookupCmd], (w.exec tr2 lookupCmd).out, (w.exec tr2 lookupCmd).err) with
        | (tr3, _, some err) => (tr3, some err)
        | (tr3, o, none) =>
          match (tr3 ++ [copyCmd w o], (w.exec tr3 (copyCmd w o)).err) with
          | (tr4, some err) => (tr4, some err)
          | (tr4, none) =>
            (tr4 ++ [uploadCmd w tag token], (w.exec tr4 (uploadCmd w tag token)).err)) = _
  cases h1 : (w.exec tr buildCmd).err with
  | some e => simp
  | none =>
    simp only [List.append_assoc, List.singleton_append, List.cons_append, List.nil_append]
    cases h2 : (w.exec (tr ++ [buildCmd]) startCmd).err with
    | some e => simp
    | none =>
      simp only
      cases h3 : (w.exec (tr ++ [buildCmd, startCmd]) lookupCmd).err with
      | some e => simp
      | none =>
        simp only
        cases h4 : (w.exec (tr ++ [buildCmd, startCmd, lookupCmd])
            (copyCmd w (w.exec (tr ++ [buildCmd, startCmd]) lookupCmd).out)).err with
        | some e => simp [h4]
        | none => simp [h4]

theorem Sprintf_cp (x : String) :
    fmt.Sprintf "cp %v:/src/build/ ./build" [x]
      = ⟨'c' :: 'p' :: ' ' :: (x.data ++ ":/src/build/ ./build".data)⟩ := rfl

theorem splitLoop_piece (c0 : Char) (rest : List Char) :
    ∀ (xs : List Char) (fuel : Nat) (acc : List Char), c0 ∉ xs → xs.length < fuel →
      strings.splitLoop [c0] fuel acc (xs ++ c0 :: rest)
        = (acc.reverse ++ xs) :: strings.splitLoop [c0] (fuel - xs.length - 1) [] rest := by
  intro xs
  induction xs with
  | nil =>
    intro fuel acc _ hf
    obtain ⟨k, rfl⟩ : ∃ k, fuel = k + 1 := ⟨fuel - 1, by simp at hf; omega⟩
    simp [strings.splitLoop, List.isPrefixOf]
  | cons x xs ih =>
    intro fuel acc hx hf
    obtain ⟨k, rfl⟩ : ∃ k, fuel = k + 1 := ⟨fuel - 1, by simp at hf; omega⟩
    have hne : c0 ≠ x := by
      intro h; exact hx (by simp [h])
    have hxs : c0 ∉ xs := by
      intro h; exact hx (by simp [h])
    have hk : xs.length < k := by simp at hf; omega
    simp only [List.cons_append, strings.splitLoop, List.isPrefixOf]
    have hb : (c0 == x) = false := by simpa using hne
    simp only [hb, Bool.false_and, Bool.false_eq_true, ↓reduceIte]
    show strings.splitLoop [c0] k (x :: acc) (xs ++ c0 :: rest) = _
    rw [ih k (x :: acc) hxs hk]
    simp

theorem splitLoop_last (c0 : Char) :
    ∀ (xs : List Char) (fuel : Nat) (acc : List Char), c0 ∉ xs →
      strings.splitLoop [c0] fuel acc xs = [acc.reverse ++ xs] := by
  intro xs
  induction xs with
  | nil =>
    intro fuel acc _
    cases fuel <;> simp [strings.splitLoop]
  | cons x xs ih =>
    intro fuel acc hx
    have hne : c0 ≠ x := by
      intro h; exact hx (by simp [h])
    have hxs : c0 ∉ xs := by
      intro h; exact hx (by simp [h])
    cases fuel with
    | zero => simp [strings.splitLoop]
    | succ k =>
      simp only [strings.splitLoop, List.isPrefixOf]
      have hb : (c0 == x) = false := by simpa using hne
      simp only [hb, Bool.false_and, Bool.false_eq_true, ↓reduceIte]
      rw [ih k (x :: acc) hxs]
      simp

theorem dropWhile_all_append {α : Type} (p : α → Bool) :
    ∀ (a b : List α), (∀ x ∈ a, p x = true) → (a ++ b).dropWhile p = b.dropWhile p := by
  intro a
  induction a with
  | nil => intro b _; rfl
  | cons x xs ih =>
    intro b h
    have hx : p x = true := h x (by simp)
    simp only [List.cons_append, List.dropWhile_cons, hx, ↓reduceIte]
    exact ih b (fun y hy => h y (by simp [hy]))

theorem dropWhile_none {α : Type} (p : α → Bool) (l : List α) (h : ∀ x ∈ l, p x = false)
    (b : List α) (hl : l ≠ []) : (l ++ b).dropWhile p = l ++ b := by
  cases l with
  | nil => exact absurd rfl hl
  | cons x xs =>
    have hx : p x = false := h x (by simp)
    simp [List.dropWhile_cons, hx]

theorem trim_padded (a l b : List Char) (ha : ∀ x ∈ a, unicode.IsSpace x = true)
    (hb : ∀ x ∈ b, unicode.IsSpace x = true) (hl : l ≠ [])
    (hn : ∀ x ∈ l, unicode.IsSpace x = false) :
    ((a ++ l ++ b).dropWhile unicode.IsSpace).rdropWhile unicode.IsSpace = l := by
  rw [List.append_assoc, dropWhile_all_append _ a (l ++ b) ha, dropWhile_none _ l hn b hl]
  unfold List.rdropWhile
  rw [List.reverse_append, dropWhile_all_append _ b.reverse l.reverse (by simpa using hb)]
  have := dropWhile_none unicode.IsSpace l.reverse (by simpa using hn) [] (by simpa using hl)
  simp only [List.append_nil] at this
  rw [this, List.reverse_reverse]

theorem TrimSpace_padded (w1 id w2 : String)
    (h1 : ∀ c ∈ w1.data, unicode.IsSpace c = true)
    (h2 : ∀ c ∈ w2.data, unicode.IsSpace c = true)
    (hid : id ≠ "") (hn : ∀ c ∈ id.data, unicode.IsSpace c = false) :
    strings.TrimSpace (w1 ++ id ++ w2) = id := by
  unfold strings.TrimSpace
  have hl : id.data ≠ [] := by
    intro h
    apply hid
    cases id
    simp_all
  simp only [String.data_append]
  rw [trim_padded w1.data id.data w2.data h1 h2 hl hn]

theorem copy_args_padded (w1 id w2 : String)
    (h1 : ∀ c ∈ w1.data, unicode.IsSpace c = true)
    (h2 : ∀ c ∈ w2.data, unicode.IsSpace c = true)
    (hid : id ≠ "") (hn : ∀ c ∈ id.data, unicode.IsSpace c = false) :
    strings.Split (fmt.Sprintf "cp %v:/src/build/ ./build" [strings.TrimSpace (w1 ++ id ++ w2)])
      " " = ["cp", id ++ ":/src/build/", "./build"] := by
  rw [TrimSpace_padded w1 id w2 h1 h2 hid hn, Sprintf_cp]
  have hsp : ' ' ∉ id.data := by
    intro h
    have := hn ' ' h
    revert this
    decide
  have hsp2 : ' ' ∉ id.data ++ ":/src/build/".data := by
    intro h
    rcases List.mem_append.mp h with h | h
    · exact hsp h
    · revert h; decide
  unfold strings.Split
  have e1 : (" " : String).data = [' '] := rfl
  simp only [e1]
  have e2 : 'c' :: 'p' :: ' ' :: (id.data ++ ":/src/build/ ./build".data)
      = ['c', 'p'] ++ ' ' :: ((id.data ++ ":/src/build/".data) ++ ' ' :: "./build".data) := by
    simp
  rw [if_neg (by simp)]
  simp only [e2]
  rw [splitLoop_piece ' ' _ ['c', 'p'] _ [] (by decide) (by simp),
    splitLoop_piece ' ' _ _ _ [] hsp2 (by simp),
    splitLoop_last ' ' _ _ [] (by decide)]
  simp only [List.reverse_nil, List.nil_append, List.map_cons, List.map_nil]
  have e3 : String.mk (id.data ++ ":/src/build/".data) = id ++ ":/src/build/" :=
    String.ext (by rw [String.data_append])
  rw [e3]

theorem copyCmd_padded (w : World) (w1 id w2 : String)
    (h1 : ∀ c ∈ w1.data, unicode.IsSpace c = true)
    (h2 : ∀ c ∈ w2.data, unicode.IsSpace c = true)
    (hid : id ≠ "") (hn : ∀ c ∈ id.data, unicode.IsSpace c = false)
    (hd : '$' ∉ id.data) :
    copyCmd w (w1 ++ id ++ w2) = ⟨[], "docker", ["cp", id ++ ":/src/build/", "./build"]⟩ := by
  unfold copyCmd
  rw [copy_args_padded w1 id w2 h1 h2 hid hn]
  apply command_plain w [] "docker" _ (by decide)
  intro a ha
  simp only [List.mem_cons, List.mem_singleton, List.not_mem_nil, or_false] at ha
  rcases ha with rfl | rfl | rfl
  · decide
  · rw [String.data_append]
    intro hm
    rcases List.mem_append.mp hm with hm | hm
    · exact hd hm
    · revert hm; decide
  · decide

theorem installGhrIfNeeded_trace (w : World) (tr : Trace) :
    (ci.installGhrIfNeeded w tr).1 = tr ++ [probeCmd] ∨
      (ci.installGhrIfNeeded w tr).1 = tr ++ [probeCmd, installCmd] := by
  cases h : (w.exec tr probeCmd).err with
  | none => left; rw [installGhrIfNeeded_present w tr h]
  | some e => right; rw [installGhrIfNeeded_missing w tr e h]

theorem steps_trace (w : World) (tag token : String) (tr : Trace) :
    ∃ k, 1 ≤ k ∧ k ≤ 5 ∧
      (ci.Release.steps w tag token tr).1 = tr ++ (releaseSteps w tag token tr).take k := by
  rw [steps_unfold]
  cases (w.exec tr buildCmd).err with
  | some e => exact ⟨1, by omega, by omega, rfl⟩
  | none =>
    cases (w.exec (tr ++ [buildCmd]) startCmd).err with
    | some e => exact ⟨2, by omega, by omega, rfl⟩
    | none =>
      cases (w.exec (tr ++ [buildCmd, startCmd]) lookupCmd).err with
      | some e => exact ⟨3, by omega, by omega, rfl⟩
      | none =>
        cases (w.exec (tr ++ [buildCmd, startCmd, lookupCmd])
            (copyCmd w (w.exec (tr ++ [buildCmd, startCmd]) lookupCmd).out)).err with
        | some e => exact ⟨4, by omega, by omega, rfl⟩
        | none => exact ⟨5, by omega, by omega, rfl⟩

theorem down_not_step (w : World) (tag token : String) (tr : Trace) :
    downCmd ∉ releaseSteps w tag token tr := by
  unfold releaseSteps
  simp only [List.mem_cons, List.mem_singleton, List.not_mem_nil, or_false, not_or]
  refine ⟨by decide, by decide, by decide, ?_, ?_⟩
  · intro h
    have hn : ("docker-compose" : String) = "docker" :=
      (congrArg Cmd.name h).trans (copyCmd_name w _)
    revert hn
    decide
  · intro h
    have hn : ("docker-compose" : String) = "ghr" :=
      (congrArg Cmd.name h).trans (uploadCmd_name w _ _)
    revert hn
    decide

/-! ## The test pipeline `E2e` -/

/-- C4: whatever the bring-up, test-run and tear-down commands return, the
commands issued by `E2e` contain `docker-compose down` exactly once, as the
last command. -/
theorem E2e_teardown_once_last (w : World) (tr : Trace) :
    ∃ cmds : List Cmd, (ci.E2e w tr).1 = tr ++ cmds ∧ cmds.count downCmd = 1 ∧
      cmds.getLast? = some downCmd := by
  rw [E2e_eq, E2e_steps_eq]
  cases (w.exec tr bringUpCmd).err with
  | some e => exact ⟨[bringUpCmd, downCmd], by simp, by decide, rfl⟩
  | none => exact ⟨[bringUpCmd, testCmd, downCmd], by simp, by decide, rfl⟩

/-- C8: the result of `E2e` is that of the first failing step.  A failing
bring-up gives exactly its error and the test command is not issued (the
commands are bring-up and tear-down only); after a successful bring-up the
result is exactly that of the test command; the result is nil iff both
succeed; and a world that differs only in what the tear-down command returns
gives the same result. -/
theorem E2e_first_failure (w : World) (tr : Trace) :
    (∀ e, (w.exec tr bringUpCmd).err = some e →
        (ci.E2e w tr).2 = some e ∧ (ci.E2e w tr).1 = tr ++ [bringUpCmd, downCmd]) ∧
    ((w.exec tr bringUpCmd).err = none →
        (ci.E2e w tr).2 = (w.exec (tr ++ [bringUpCmd]) testCmd).err) ∧
    ((ci.E2e w tr).2 = none ↔
        (w.exec tr bringUpCmd).err = none ∧
          (w.exec (tr ++ [bringUpCmd]) testCmd).err = none) ∧
    (∀ w2 : World, (∀ h c, c ≠ downCmd → w2.exec h c = w.exec h c) →
        (ci.E2e w2 tr).2 = (ci.E2e w tr).2) := by
  refine ⟨?_, ?_, ?_, ?_⟩
  · intro e he
    rw [E2e_eq, E2e_steps_eq, he]
    simp
  · intro he
    rw [E2e_eq, E2e_steps_eq, he]
  · rw [E2e_eq, E2e_steps_eq]
    cases he : (w.exec tr bringUpCmd).err with
    | some e => simp
    | none => simp
  · intro w2 hw
    rw [E2e_eq, E2e_eq, E2e_steps_eq, E2e_steps_eq,
      hw tr bringUpCmd (by decide), hw (tr ++ [bringUpCmd]) testCmd (by decide)]

/-- Witness for C8: a run whose bring-up fails returns the bring-up error and
issues bring-up and tear-down only. -/
theorem E2e_first_failure_witness :
    (ci.E2e (scriptedWorld "" "" [bringUpCmd] "") []).2 = some ⟨"docker-compose failed"⟩ ∧
      (ci.E2e (scriptedWorld "" "" [bringUpCmd] "") []).1 = [] ++ [bringUpCmd, downCmd] :=
  (E2e_first_failure (scriptedWorld "" "" [bringUpCmd] "") []).1 ⟨"docker-compose failed"⟩
    (by decide)

/-! ## The release pipeline `Release` -/

/-- C10: `installGhrIfNeeded` issues the install command iff the presence
probe fails.  When the probe succeeds it returns nil and issues the probe only;
when the probe fails it issues probe and install and returns exactly the
install command's result.  When the probe and the install both fail, `Release`
ends in failure having issued these two commands only, so no `docker-compose`,
`docker` or `ghr` command. -/
theorem installGhrIfNeeded_spec (w : World) (tr : Trace) :
    ((w.exec tr probeCmd).err = none →
        ci.installGhrIfNeeded w tr = (tr ++ [probeCmd], none)) ∧
    ((w.exec tr probeCmd).err ≠ none →
        ci.installGhrIfNeeded w tr =
          (tr ++ [probeCmd, installCmd], (w.exec (tr ++ [probeCmd]) installCmd).err)) ∧
    (∃ cmds, (ci.installGhrIfNeeded w tr).1 = tr ++ cmds ∧
        (installCmd ∈ cmds ↔ (w.exec tr probeCmd).err ≠ none)) ∧
    ((w.exec tr probeCmd).err ≠ none → (w.exec (tr ++ [probeCmd]) installCmd).err ≠ none →
        (ci.Release w tr).2.failed = true ∧
          (ci.Release w tr).1 = tr ++ [probeCmd, installCmd] ∧
          ∀ c ∈ [probeCmd, installCmd],
            c.name ≠ "docker-compose" ∧ c.name ≠ "docker" ∧ c.name ≠ "ghr") := by
  refine ⟨installGhrIfNeeded_present w tr, ?_, ?_, ?_⟩
  · intro h
    obtain ⟨e, he⟩ := Option.ne_none_iff_exists'.mp h
    exact installGhrIfNeeded_missing w tr e he
  · cases h : (w.exec tr probeCmd).err with
    | none =>
      refine ⟨[probeCmd], by rw [installGhrIfNeeded_present w tr h], ?_⟩
      simp
      decide
    | some e =>
      refine ⟨[probeCmd, installCmd], by rw [installGhrIfNeeded_missing w tr e h], ?_⟩
      simp
  · intro h1 h2
    obtain ⟨e1, he1⟩ := Option.ne_none_iff_exists'.mp h1
    obtain ⟨e2, he2⟩ := Option.ne_none_iff_exists'.mp h2
    have hi := installGhrIfNeeded_missing w tr e1 he1
    have hd : (ci.installGhrIfNeeded w tr).2 = some e2 := by rw [hi]; exact he2
    rw [Release_deps_fail w tr e2 hd, hi]
    exact ⟨rfl, rfl, by decide⟩

/-- Witness for C10: with `ghr` missing and its installation failing, `Release`
fails after the probe and the install command. -/
theorem installGhrIfNeeded_spec_witness :
    (ci.Release (scriptedWorld "v1.2.3" "tok-abc" [probeCmd, installCmd] "") []).2.failed = true ∧
      (ci.Release (scriptedWorld "v1.2.3" "tok-abc" [probeCmd, installCmd] "") []).1
        = [] ++ [probeCmd, installCmd] ∧
      ∀ c ∈ [probeCmd, installCmd],
        c.name ≠ "docker-compose" ∧ c.name ≠ "docker" ∧ c.name ≠ "ghr" :=
  (installGhrIfNeeded_spec (scriptedWorld "v1.2.3" "tok-abc" [probeCmd, installCmd] "") []).2.2.2
    (by decide) (by decide)

/-- C1 (evaluation at the failing input): with `BUILD_TAG` set, `GITHUB_TOKEN`
empty and every command succeeding, `Release` returns nil and issues the
upload command `ghr` with an empty credential injected. -/
theorem Release_empty_token_uploads :
    ci.Release (scriptedWorld "v1.2.3" "" [] "c0ffee") [] =
      ([probeCmd, buildCmd, startCmd, lookupCmd,
          ⟨[], "docker", ["cp", "c0ffee:/src/build/", "./build"]⟩,
          ⟨[("GITHUB_TOKEN", "")], "ghr", ["-replace", "v1.2.3", "build/contracts/"]⟩,
          downCmd],
        Outcome.returned none) := by
  decide

/-- C2 (counterexample): with `BUILD_TAG` empty, `ghr` missing and its
installation failing, `Release` does not return an error: it panics inside
`mg.Deps`. -/
theorem Release_empty_tag_panics :
    (scriptedWorld "" "tok-abc" [probeCmd, installCmd] "").getenv "BUILD_TAG" = "" ∧
      ¬ ∃ e, (ci.Release (scriptedWorld "" "tok-abc" [probeCmd, installCmd] "") []).2
        = Outcome.returned (some e) := by
  refine ⟨by decide, ?_⟩
  rintro ⟨e, he⟩
  have h : (ci.Release (scriptedWorld "" "tok-abc" [probeCmd, installCmd] "") []).2
      = Outcome.panicked ⟨"go failed"⟩ := by decide
  rw [h] at he
  cases he

/-- C2 (amended): with `BUILD_TAG` empty or absent `Release` fails, by
returning the error "no tag specified" when the dependency step succeeded and
by the panic of `mg.Deps` when it failed; the commands it issues are exactly
those of the dependency step: the probe `command -v ghr` alone when the probe
succeeds, the probe and `go get -u github.com/tcnksm/ghr` when it fails.  None
of them is `docker-compose`, `docker` or `ghr`. -/
theorem Release_empty_tag (w : World) (tr : Trace) (htag : w.getenv "BUILD_TAG" = "") :
    (ci.Release w tr).2.failed = true ∧
    ((ci.installGhrIfNeeded w tr).2 = none →
        (ci.Release w tr).2 = Outcome.returned (some ⟨"no tag specified"⟩)) ∧
    (∀ e, (ci.installGhrIfNeeded w tr).2 = some e →
        (ci.Release w tr).2 = Outcome.panicked ⟨e.msg⟩) ∧
    (ci.Release w tr).1 = (ci.installGhrIfNeeded w tr).1 ∧
    ((w.exec tr probeCmd).err = none → (ci.Release w tr).1 = tr ++ [probeCmd]) ∧
    ((w.exec tr probeCmd).err ≠ none → (ci.Release w tr).1 = tr ++ [probeCmd, installCmd]) ∧
    (∀ c ∈ [probeCmd, installCmd],
        c.name ≠ "docker-compose" ∧ c.name ≠ "docker" ∧ c.name ≠ "ghr") := by
  have htr : (ci.Release w tr).1 = (ci.installGhrIfNeeded w tr).1 := by
    cases h : (ci.installGhrIfNeeded w tr).2 with
    | none => rw [Release_no_tag w tr h htag]
    | some e => rw [Release_deps_fail w tr e h]
  refine ⟨?_, ?_, ?_, htr, ?_, ?_, by decide⟩
  · cases h : (ci.installGhrIfNeeded w tr).2 with
    | none => rw [Release_no_tag w tr h htag]; rfl
    | some e => rw [Release_deps_fail w tr e h]; rfl
  · intro h
    rw [Release_no_tag w tr h htag]
  · intro e h
    rw [Release_deps_fail w tr e h]
  · intro h
    rw [htr, installGhrIfNeeded_present w tr h]
  · intro h
    obtain ⟨e, he⟩ := Option.ne_none_iff_exists'.mp h
    rw [htr, installGhrIfNeeded_missing w tr e he]

/-- Witness for C2 (amended): with `BUILD_TAG` empty and `ghr` present,
`Release` returns "no tag specified" after the probe alone. -/
theorem Release_empty_tag_witness :
    (ci.Release (scriptedWorld "" "tok-abc" [] "") []).2
        = Outcome.returned (some ⟨"no tag specified"⟩) ∧
      (ci.Release (scriptedWorld "" "tok-abc" [] "") []).1 = [] ++ [probeCmd] :=
  ⟨(Release_empty_tag (scriptedWorld "" "tok-abc" [] "") [] (by decide)).2.1 (by decide),
    (Release_empty_tag (scriptedWorld "" "tok-abc" [] "") [] (by decide)).2.2.2.2.1 (by decide)⟩

/-- C3 (counterexample): with `BUILD_TAG` empty (and `ghr` present) `Release`
returns "no tag specified" without ever issuing `docker-compose down`. -/
theorem Release_empty_tag_no_teardown :
    (ci.Release (scriptedWorld "" "tok-abc" [] "") []).2
        = Outcome.returned (some ⟨"no tag specified"⟩) ∧
      (ci.Release (scriptedWorld "" "tok-abc" [] "") []).1.count downCmd = 0 := by
  decide

/-- C3 (amended): a run of `Release` that ends before the tear-down is
registered (the dependency step fails, or `BUILD_TAG` is empty) never issues
`docker-compose down`; a run with non-empty tag and credential whose
dependency step succeeds issues it exactly once, as its last command,
whichever later step fails or none. -/
theorem Release_teardown (w : World) (tr : Trace) :
    (((ci.installGhrIfNeeded w tr).2 ≠ none ∨ w.getenv "BUILD_TAG" = "") →
        ∃ cmds, (ci.Release w tr).1 = tr ++ cmds ∧ cmds.count downCmd = 0) ∧
    ((ci.installGhrIfNeeded w tr).2 = none → w.getenv "BUILD_TAG" ≠ "" →
        w.getenv "GITHUB_TOKEN" ≠ "" →
        ∃ cmds, (ci.Release w tr).1 = tr ++ cmds ∧ cmds.count downCmd = 1 ∧
          cmds.getLast? = some downCmd) := by
  constructor
  · intro h
    have htr : (ci.Release w tr).1 = (ci.installGhrIfNeeded w tr).1 := by
      cases hd : (ci.installGhrIfNeeded w tr).2 with
      | some e => rw [Release_deps_fail w tr e hd]
      | none =>
        rcases h with h | h
        · exact absurd hd h
        · rw [Release_no_tag w tr hd h]
    rcases installGhrIfNeeded_trace w tr with hi | hi
    · exact ⟨[probeCmd], by rw [htr, hi], by decide⟩
    · exact ⟨[probeCmd, installCmd], by rw [htr, hi], by decide⟩
  · intro hd htag _
    obtain ⟨k, _, _, hk⟩ := steps_trace w (w.getenv "BUILD_TAG") (w.getenv "GITHUB_TOKEN")
      (ci.installGhrIfNeeded w tr).1
    have hz : ∀ (l : List Cmd), downCmd ∉ l → (l ++ [downCmd]).count downCmd = 1 := by
      intro l hl
      rw [List.count_append, List.count_eq_zero.mpr hl]
      rfl
    have hnot : downCmd ∉ (releaseSteps w (w.getenv "BUILD_TAG") (w.getenv "GITHUB_TOKEN")
        (ci.installGhrIfNeeded w tr).1).take k :=
      fun hm => down_not_step w _ _ _ (List.mem_of_mem_take hm)
    rw [Release_run w tr hd htag, hk]
    rcases installGhrIfNeeded_trace w tr with hi | hi
    · refine ⟨[probeCmd] ++ (releaseSteps w (w.getenv "BUILD_TAG") (w.getenv "GITHUB_TOKEN")
        (ci.installGhrIfNeeded w tr).1).take k ++ [downCmd], ?_, ?_, ?_⟩
      · rw [hi]; simp
      · apply hz
        intro hm
        rcases List.mem_append.mp hm with hm | hm
        · revert hm; decide
        · exact hnot hm
      · exact List.getLast?_concat _
    · refine ⟨[probeCmd, installCmd] ++ (releaseSteps w (w.getenv "BUILD_TAG")
        (w.getenv "GITHUB_TOKEN") (ci.installGhrIfNeeded w tr).1).take k ++ [downCmd], ?_, ?_, ?_⟩
      · rw [hi]; simp
      · apply hz
        intro hm
        rcases List.mem_append.mp hm with hm | hm
        · revert hm; decide
        · exact hnot hm
      · exact List.getLast?_concat _

/-- Witness for C3 (amended): a run with tag and credential set whose copy step
fails issues the tear-down exactly once, last. -/
theorem Release_teardown_witness :
    ∃ cmds, (ci.Release (scriptedWorld "v1.2.3" "tok-abc" [⟨[], "docker", ["cp", "c0ffee:/src/build/", "./build"]⟩] "c0ffee") []).1
        = [] ++ cmds ∧ cmds.count downCmd = 1 ∧ cmds.getLast? = some downCmd :=
  (Release_teardown (scriptedWorld "v1.2.3" "tok-abc" [⟨[], "docker", ["cp", "c0ffee:/src/build/", "./build"]⟩] "c0ffee") []).2
    (by decide) (by decide) (by decide)

/-- C5 (counterexample): with a non-empty tag and all five steps set to
succeed, but `ghr` missing and its installation failing, `Release` issues none
of the five steps (not even the build) and returns nothing: it panics. -/
theorem Release_deps_fail_no_steps :
    (scriptedWorld "v1.2.3" "tok-abc" [probeCmd, installCmd] "c0ffee").getenv "BUILD_TAG" ≠ "" ∧
      (∀ i, stepResult (scriptedWorld "v1.2.3" "tok-abc" [probeCmd, installCmd] "c0ffee")
          [probeCmd, installCmd]
          (releaseSteps (scriptedWorld "v1.2.3" "tok-abc" [probeCmd, installCmd] "c0ffee")
            "v1.2.3" "tok-abc" [probeCmd, installCmd]) i = none) ∧
      ci.Release (scriptedWorld "v1.2.3" "tok-abc" [probeCmd, installCmd] "c0ffee") []
        = ([probeCmd, installCmd], Outcome.panicked ⟨"go failed"⟩) := by
  refine ⟨by decide, ?_, by decide⟩
  intro i
  match i with
  | 0 | 1 | 2 | 3 | 4 => decide
  | _ + 5 => rfl

/-- C5 (amended): in a run of `Release` with a non-empty tag whose dependency
step succeeds, let `n` be the first failing one of the steps build, start,
lookup, copy, upload (the last step when none fails).  Then the commands
issued after the dependency step are exactly the steps up to and including
step `n`, followed by the tear-down, and `Release` returns exactly the result
of step `n`: the first failing step's error, nil when no step fails. -/
theorem Release_first_failure (w : World) (tr : Trace)
    (hdeps : (ci.installGhrIfNeeded w tr).2 = none) (htag : w.getenv "BUILD_TAG" ≠ "")
    (n : Nat) (hn : n < 5)
    (hok : ∀ i < n, stepResult w (ci.installGhrIfNeeded w tr).1
      (releaseSteps w (w.getenv "BUILD_TAG") (w.getenv "GITHUB_TOKEN")
        (ci.installGhrIfNeeded w tr).1) i = none)
    (hfail : n < 4 → stepResult w (ci.installGhrIfNeeded w tr).1
      (releaseSteps w (w.getenv "BUILD_TAG") (w.getenv "GITHUB_TOKEN")
        (ci.installGhrIfNeeded w tr).1) n ≠ none) :
    (ci.Release w tr).1 = (ci.installGhrIfNeeded w tr).1 ++
        (releaseSteps w (w.getenv "BUILD_TAG") (w.getenv "GITHUB_TOKEN")
          (ci.installGhrIfNeeded w tr).1).take (n + 1) ++ [downCmd] ∧
      (ci.Release w tr).2 = Outcome.returned
        (stepResult w (ci.installGhrIfNeeded w tr).1
          (releaseSteps w (w.getenv "BUILD_TAG") (w.getenv "GITHUB_TOKEN")
            (ci.installGhrIfNeeded w tr).1) n) := by
  rw [Release_run w tr hdeps htag, steps_unfold]
  generalize (ci.installGhrIfNeeded w tr).1 = t at *
  have h0 := hok 0
  have h1 := hok 1
  have h2 := hok 2
  have h3 := hok 3
  simp only [stepResult, releaseSteps] at h0 h1 h2 h3 hfail ⊢
  match n, hn with
  | 0, _ =>
    obtain ⟨e, he⟩ := Option.ne_none_iff_exists'.mp (hfail (by omega))
    simp at he
    simp [he]
  | 1, _ =>
    obtain ⟨e, he⟩ := Option.ne_none_iff_exists'.mp (hfail (by omega))
    simp at he h0
    simp [he, h0]
  | 2, _ =>
    obtain ⟨e, he⟩ := Option.ne_none_iff_exists'.mp (hfail (by omega))
    simp at he h0 h1
    simp [he, h0, h1]
  | 3, _ =>
    obtain ⟨e, he⟩ := Option.ne_none_iff_exists'.mp (hfail (by omega))
    simp at he h0 h1 h2
    simp [he, h0, h1, h2]
  | 4, _ =>
    simp at h0 h1 h2 h3
    simp [h0, h1, h2, h3]

/-- Witness for C5 (amended): with the start step failing, the steps issued are
build and start, then the tear-down, and the start error is returned. -/
theorem Release_first_failure_witness :
    (ci.Release (scriptedWorld "v1.2.3" "tok-abc" [startCmd] "c0ffee") []).1
        = [probeCmd] ++ [buildCmd, startCmd] ++ [downCmd] ∧
      (ci.Release (scriptedWorld "v1.2.3" "tok-abc" [startCmd] "c0ffee") []).2
        = Outcome.returned (some ⟨"docker-compose failed"⟩) :=
  Release_first_failure (scriptedWorld "v1.2.3" "tok-abc" [startCmd] "c0ffee") []
    (by decide) (by decide) 1 (by decide)
    (fun i hi => by
      have : i = 0 := by omega
      subst this
      decide)
    (fun _ => by decide)

/-- C6 (counterexample): with `BUILD_TAG` = "v$GITHUB_TOKEN" (a non-empty tag),
`GITHUB_TOKEN` = "tok-abc" and every command succeeding, the upload tool is
run with the arguments `-replace vtok-abc build/contracts/`: `sh` has expanded
the reference inside the tag. -/
theorem Release_tag_expanded :
    (scriptedWorld "v$GITHUB_TOKEN" "tok-abc" [] "c0ffee").getenv "BUILD_TAG"
        = "v$GITHUB_TOKEN" ∧
      ci.Release (scriptedWorld "v$GITHUB_TOKEN" "tok-abc" [] "c0ffee") [] =
        ([probeCmd, buildCmd, startCmd, lookupCmd,
            ⟨[], "docker", ["cp", "c0ffee:/src/build/", "./build"]⟩,
            ⟨[("GITHUB_TOKEN", "tok-abc")], "ghr", ["-replace", "vtok-abc", "build/contracts/"]⟩,
            downCmd],
          Outcome.returned none) := by
  decide

/-- C6 (amended): with `BUILD_TAG` = "v1.2.3", `GITHUB_TOKEN` = "tok-abc", every
command succeeding and the lookup printing "c0ffee", `Release` returns nil and
issues exactly probe, build, start, lookup, copy from `c0ffee:/src/build/`,
upload and tear-down: `ghr` is issued once, with arguments `-replace v1.2.3
build/contracts/` and the credential injected, no other command has the
credential injected, and the tear-down comes after the upload.  In every run,
each `ghr` command issued is the upload with the credential injected and the
arguments `-replace <t> build/contracts/`, where `<t>` is the tag after the
expansion of `sh` (names looked up in the injected environment, then in the
process environment).  For a tag without `$` that is the tag itself: a run
whose dependency step, build, start, lookup and copy succeed issues, right
after the copy, `ghr -replace <tag> build/contracts/` and then the tear-down,
and returns the result of `ghr`. -/
theorem Release_success (w : World) (tr : Trace) :
    (w.getenv "BUILD_TAG" = "v1.2.3" → w.getenv "GITHUB_TOKEN" = "tok-abc" →
      (∀ h c, (w.exec h c).err = none) → (∀ h, (w.exec h lookupCmd).out = "c0ffee") →
      ∃ cmds, ci.Release w tr = (tr ++ cmds, Outcome.returned none) ∧
        cmds = [probeCmd, buildCmd, startCmd, lookupCmd,
          ⟨[], "docker", ["cp", "c0ffee:/src/build/", "./build"]⟩,
          ⟨[("GITHUB_TOKEN", "tok-abc")], "ghr", ["-replace", "v1.2.3", "build/contracts/"]⟩,
          downCmd] ∧
        cmds.filter (fun c => c.name = "ghr") =
          [⟨[("GITHUB_TOKEN", "tok-abc")], "ghr", ["-replace", "v1.2.3", "build/contracts/"]⟩] ∧
        (∀ c ∈ cmds, c.name ≠ "ghr" → c.env = []) ∧
        cmds.indexOf
            ⟨[("GITHUB_TOKEN", "tok-abc")], "ghr", ["-replace", "v1.2.3", "build/contracts/"]⟩
          < cmds.indexOf downCmd) ∧
    (∃ cmds, (ci.Release w tr).1 = tr ++ cmds ∧
      ∀ c ∈ cmds, c.name = "ghr" →
        c = ⟨[("GITHUB_TOKEN", w.getenv "GITHUB_TOKEN")], "ghr",
          ["-replace",
            sh.expand w [("GITHUB_TOKEN", w.getenv "GITHUB_TOKEN")] (w.getenv "BUILD_TAG"),
            "build/contracts/"]⟩) ∧
    (w.getenv "BUILD_TAG" ≠ "" → '$' ∉ (w.getenv "BUILD_TAG").data →
      (∃ cmds, (ci.Release w tr).1 = tr ++ cmds ∧
        ∀ c ∈ cmds, c.name = "ghr" →
          c.args = ["-replace", w.getenv "BUILD_TAG", "build/contracts/"]) ∧
      ((ci.installGhrIfNeeded w tr).2 = none →
        (w.exec (ci.installGhrIfNeeded w tr).1 buildCmd).err = none →
        (w.exec ((ci.installGhrIfNeeded w tr).1 ++ [buildCmd]) startCmd).err = none →
        (w.exec ((ci.installGhrIfNeeded w tr).1 ++ [buildCmd, startCmd]) lookupCmd).err = none →
        (w.exec ((ci.installGhrIfNeeded w tr).1 ++ [buildCmd, startCmd, lookupCmd])
          (copyCmd w (w.exec ((ci.installGhrIfNeeded w tr).1 ++ [buildCmd, startCmd])
            lookupCmd).out)).err = none →
        ci.Release w tr =
          ((ci.installGhrIfNeeded w tr).1 ++ [buildCmd, startCmd, lookupCmd,
              copyCmd w (w.exec ((ci.installGhrIfNeeded w tr).1 ++ [buildCmd, startCmd])
                lookupCmd).out,
              ⟨[("GITHUB_TOKEN", w.getenv "GITHUB_TOKEN")], "ghr",
                ["-replace", w.getenv "BUILD_TAG", "build/contracts/"]⟩,
              downCmd],
            Outcome.returned
              (w.exec ((ci.installGhrIfNeeded w tr).1 ++ [buildCmd, startCmd, lookupCmd,
                copyCmd w (w.exec ((ci.installGhrIfNeeded w tr).1 ++ [buildCmd, startCmd])
                  lookupCmd).out])
                ⟨[("GITHUB_TOKEN", w.getenv "GITHUB_TOKEN")], "ghr",
                  ["-replace", w.getenv "BUILD_TAG", "build/contracts/"]⟩).err))) := by
  have general : ∃ cmds, (ci.Release w tr).1 = tr ++ cmds ∧
      ∀ c ∈ cmds, c.name = "ghr" →
        c = ⟨[("GITHUB_TOKEN", w.getenv "GITHUB_TOKEN")], "ghr",
          ["-replace",
            sh.expand w [("GITHUB_TOKEN", w.getenv "GITHUB_TOKEN")] (w.getenv "BUILD_TAG"),
            "build/contracts/"]⟩ := by
    have key : ∀ (d : List Cmd), (∀ c ∈ d, c.name ≠ "ghr") → ∀ (k : Nat) (t : Trace),
        ∀ c ∈ d ++ (releaseSteps w (w.getenv "BUILD_TAG") (w.getenv "GITHUB_TOKEN") t).take k
            ++ [downCmd],
          c.name = "ghr" →
            c = ⟨[("GITHUB_TOKEN", w.getenv "GITHUB_TOKEN")], "ghr",
              ["-replace",
                sh.expand w [("GITHUB_TOKEN", w.getenv "GITHUB_TOKEN")] (w.getenv "BUILD_TAG"),
                "build/contracts/"]⟩ := by
      intro d hdn k t c hc hname
      rcases List.mem_append.mp hc with hc | hc
      · rcases List.mem_append.mp hc with hc | hc
        · exact absurd hname (hdn c hc)
        · have hm := List.mem_of_mem_take hc
          simp only [releaseSteps, List.mem_cons, List.mem_singleton, List.not_mem_nil,
            or_false] at hm
          rcases hm with rfl | rfl | rfl | rfl | rfl
          · exact absurd hname (by decide)
          · exact absurd hname (by decide)
          · exact absurd hname (by decide)
          · rw [copyCmd_name] at hname
            exact absurd hname (by decide)
          · exact uploadCmd_eq w _ _
      · simp only [List.mem_singleton] at hc
        subst hc
        exact absurd hname (by decide)
    have hno : ∀ (d : List Cmd), (∀ c ∈ d, c.name ≠ "ghr") → ∀ c ∈ d, c.name = "ghr" →
        c = ⟨[("GITHUB_TOKEN", w.getenv "GITHUB_TOKEN")], "ghr",
          ["-replace",
            sh.expand w [("GITHUB_TOKEN", w.getenv "GITHUB_TOKEN")] (w.getenv "BUILD_TAG"),
            "build/contracts/"]⟩ :=
      fun d h c hc hname => absurd hname (h c hc)
    cases hd : (ci.installGhrIfNeeded w tr).2 with
    | some e =>
      rw [Release_deps_fail w tr e hd]
      rcases installGhrIfNeeded_trace w tr with hi | hi
      · exact ⟨[probeCmd], hi, hno _ (by decide)⟩
      · exact ⟨[probeCmd, installCmd], hi, hno _ (by decide)⟩
    | none =>
      by_cases htag : w.getenv "BUILD_TAG" = ""
      · rw [Release_no_tag w tr hd htag]
        rcases installGhrIfNeeded_trace w tr with hi | hi
        · exact ⟨[probeCmd], hi, hno _ (by decide)⟩
        · exact ⟨[probeCmd, installCmd], hi, hno _ (by decide)⟩
      · obtain ⟨k, _, _, hk⟩ := steps_trace w (w.getenv "BUILD_TAG") (w.getenv "GITHUB_TOKEN")
          (ci.installGhrIfNeeded w tr).1
        rw [Release_run w tr hd htag, hk]
        rcases installGhrIfNeeded_trace w tr with hi | hi
        · refine ⟨[probeCmd] ++ (releaseSteps w (w.getenv "BUILD_TAG") (w.getenv "GITHUB_TOKEN")
            (ci.installGhrIfNeeded w tr).1).take k ++ [downCmd], ?_, key _ (by decide) k _⟩
          rw [hi]; simp
        · refine ⟨[probeCmd, installCmd] ++ (releaseSteps w (w.getenv "BUILD_TAG")
            (w.getenv "GITHUB_TOKEN") (ci.installGhrIfNeeded w tr).1).take k ++ [downCmd], ?_,
            key _ (by decide) k _⟩
          rw [hi]; simp
  refine ⟨?_, general, ?_⟩
  · intro htag htok hok hout
    refine ⟨_, ?_, rfl, by decide, by decide, by decide⟩
    have hi := installGhrIfNeeded_present w tr (hok _ _)
    have hd : (ci.installGhrIfNeeded w tr).2 = none := by rw [hi]
    have hc : copyCmd w "c0ffee" = ⟨[], "docker", ["cp", "c0ffee:/src/build/", "./build"]⟩ :=
      copyCmd_padded w "" "c0ffee" "" (by decide) (by decide) (by decide) (by decide)
        (by decide)
    have hu : uploadCmd w "v1.2.3" "tok-abc" =
        ⟨[("GITHUB_TOKEN", "tok-abc")], "ghr", ["-replace", "v1.2.3", "build/contracts/"]⟩ := by
      rw [uploadCmd_eq, expand_plain w _ "v1.2.3" (by decide)]
    rw [Release_run w tr hd (by rw [htag]; decide), steps_unfold, hi, htag, htok]
    simp only [hok, hout]
    rw [hc, hu]
    simp
  · intro htag hdollar
    have hu : uploadCmd w (w.getenv "BUILD_TAG") (w.getenv "GITHUB_TOKEN") =
        ⟨[("GITHUB_TOKEN", w.getenv "GITHUB_TOKEN")], "ghr",
          ["-replace", w.getenv "BUILD_TAG", "build/contracts/"]⟩ := by
      rw [uploadCmd_eq, expand_plain w _ _ hdollar]
    constructor
    · obtain ⟨cmds, hcmds, hall⟩ := general
      refine ⟨cmds, hcmds, fun c hc hname => ?_⟩
      rw [hall c hc hname, expand_plain w _ _ hdollar]
    · intro hd hb hs hl hcp
      rw [Release_run w tr hd htag, steps_unfold, hb, hs, hl]
      simp only [hcp, hu]
      simp

/-- Witness for C6 (amended): the success scenario in the scripted world where
every command succeeds and prints "c0ffee"; and a run with the tag
"v2.0.0-rc1", which has no `$`, uploads under that tag. -/
theorem Release_success_witness :
    (∃ cmds, ci.Release (scriptedWorld "v1.2.3" "tok-abc" [] "c0ffee") []
        = ([] ++ cmds, Outcome.returned none) ∧
      cmds = [probeCmd, buildCmd, startCmd, lookupCmd,
        ⟨[], "docker", ["cp", "c0ffee:/src/build/", "./build"]⟩,
        ⟨[("GITHUB_TOKEN", "tok-abc")], "ghr", ["-replace", "v1.2.3", "build/contracts/"]⟩,
        downCmd] ∧
      cmds.filter (fun c => c.name = "ghr") =
        [⟨[("GITHUB_TOKEN", "tok-abc")], "ghr", ["-replace", "v1.2.3", "build/contracts/"]⟩] ∧
      (∀ c ∈ cmds, c.name ≠ "ghr" → c.env = []) ∧
      cmds.indexOf
          ⟨[("GITHUB_TOKEN", "tok-abc")], "ghr", ["-replace", "v1.2.3", "build/contracts/"]⟩
        < cmds.indexOf downCmd) ∧
    ci.Release (scriptedWorld "v2.0.0-rc1" "tok-abc" [] "c0ffee") [] =
      ([probeCmd] ++ [buildCmd, startCmd, lookupCmd,
          ⟨[], "docker", ["cp", "c0ffee:/src/build/", "./build"]⟩,
          ⟨[("GITHUB_TOKEN", "tok-abc")], "ghr", ["-replace", "v2.0.0-rc1", "build/contracts/"]⟩,
          downCmd],
        Outcome.returned none) :=
  ⟨(Release_success (scriptedWorld "v1.2.3" "tok-abc" [] "c0ffee") []).1
      (by decide) (by decide) (fun _ _ => rfl) (fun _ => rfl),
    ((Release_success (scriptedWorld "v2.0.0-rc1" "tok-abc" [] "c0ffee") []).2.2
      (by decide) (by decide)).2 (by decide) (by decide) (by decide) (by decide) (by decide)⟩

/-- C7 (counterexample): the lookup prints "$BUILD_TAG\n", whose identifier
"$BUILD_TAG" is non-empty and free of white space; the copy step runs `docker`
with source `v1.2.3:/src/build/` (the tag of the run), not
`$BUILD_TAG:/src/build/`. -/
theorem Release_copy_expanded :
    ("$BUILD_TAG\n" : String) = "" ++ "$BUILD_TAG" ++ "\n" ∧
      (∀ c ∈ ("$BUILD_TAG" : String).data, unicode.IsSpace c = false) ∧
      (∀ c ∈ ("\n" : String).data, unicode.IsSpace c = true) ∧
      ci.Release (scriptedWorld "v1.2.3" "tok-abc" [] "$BUILD_TAG\n") [] =
        ([probeCmd, buildCmd, startCmd, lookupCmd,
            ⟨[], "docker", ["cp", "v1.2.3:/src/build/", "./build"]⟩,
            ⟨[("GITHUB_TOKEN", "tok-abc")], "ghr", ["-replace", "v1.2.3", "build/contracts/"]⟩,
            downCmd],
          Outcome.returned none) := by
  decide

/-- C7 (amended): when the lookup of `Release` prints `w1 ++ id ++ w2`, with
`id` non-empty, free of white space and free of `$`, and `w1`, `w2` made of
white space only, the copy step (reached when the dependency step, the tag
check, build, start and lookup succeed) is the command `docker` with exactly
the arguments `cp`, `id ++ ":/src/build/"`, `./build`, issued right after the
lookup. -/
theorem Release_copy_trimmed (w : World) (tr : Trace) (w1 id w2 : String)
    (h1 : ∀ c ∈ w1.data, unicode.IsSpace c = true)
    (h2 : ∀ c ∈ w2.data, unicode.IsSpace c = true)
    (hid : id ≠ "") (hn : ∀ c ∈ id.data, unicode.IsSpace c = false)
    (hdollar : '$' ∉ id.data)
    (hdeps : (ci.installGhrIfNeeded w tr).2 = none) (htag : w.getenv "BUILD_TAG" ≠ "")
    (hbuild : (w.exec (ci.installGhrIfNeeded w tr).1 buildCmd).err = none)
    (hstart : (w.exec ((ci.installGhrIfNeeded w tr).1 ++ [buildCmd]) startCmd).err = none)
    (hlookup : (w.exec ((ci.installGhrIfNeeded w tr).1 ++ [buildCmd, startCmd]) lookupCmd).err
      = none)
    (hout : (w.exec ((ci.installGhrIfNeeded w tr).1 ++ [buildCmd, startCmd]) lookupCmd).out
      = w1 ++ id ++ w2) :
    ∃ rest, (ci.Release w tr).1 = (ci.installGhrIfNeeded w tr).1 ++
      [buildCmd, startCmd, lookupCmd,
        ⟨[], "docker", ["cp", id ++ ":/src/build/", "./build"]⟩] ++ rest := by
  rw [Release_run w tr hdeps htag, steps_unfold, hbuild, hstart, hlookup, hout,
    copyCmd_padded w w1 id w2 h1 h2 hid hn hdollar]
  cases (w.exec ((ci.installGhrIfNeeded w tr).1 ++ [buildCmd, startCmd, lookupCmd])
      ⟨[], "docker", ["cp", id ++ ":/src/build/", "./build"]⟩).err with
  | some e => exact ⟨[downCmd], by simp⟩
  | none =>
    exact ⟨[uploadCmd w (w.getenv "BUILD_TAG") (w.getenv "GITHUB_TOKEN"), downCmd], by simp⟩

/-- Witness for C7 (amended): the lookup prints "abc123\n" and the copy source
is `abc123:/src/build/`. -/
theorem Release_copy_trimmed_witness :
    ∃ rest, (ci.Release (scriptedWorld "v1.2.3" "tok-abc" [] "abc123\n") []).1 =
      [probeCmd] ++ [buildCmd, startCmd, lookupCmd,
        ⟨[], "docker", ["cp", "abc123:/src/build/", "./build"]⟩] ++ rest :=
  Release_copy_trimmed (scriptedWorld "v1.2.3" "tok-abc" [] "abc123\n") [] "" "abc123" "\n"
    (by decide) (by decide) (by decide) (by decide) (by decide) (by decide) (by decide)
    (by decide) (by decide) (by decide) (by decide)

/-- C9 (counterexample): the lookup succeeds and prints nothing, so no
identifier is obtained; `Release` still issues the copy command (with source
`:/src/build/`) and the upload, and returns nil. -/
theorem Release_empty_lookup_continues :
    ci.Release (scriptedWorld "v1.2.3" "tok-abc" [] "") [] =
      ([probeCmd, buildCmd, startCmd, lookupCmd,
          ⟨[], "docker", ["cp", ":/src/build/", "./build"]⟩,
          ⟨[("GITHUB_TOKEN", "tok-abc")], "ghr", ["-replace", "v1.2.3", "build/contracts/"]⟩,
          downCmd],
        Outcome.returned none) := by
  decide

/-- C9 (amended): when the lookup command of `Release` returns an error (in a
run that reaches it: dependency step, tag check, build and start succeeded),
`Release` returns exactly that error, and after the lookup it issues the
tear-down only: neither the copy command nor the upload tool. -/
theorem Release_lookup_error (w : World) (tr : Trace) (e : GoError)
    (hdeps : (ci.installGhrIfNeeded w tr).2 = none) (htag : w.getenv "BUILD_TAG" ≠ "")
    (hbuild : (w.exec (ci.installGhrIfNeeded w tr).1 buildCmd).err = none)
    (hstart : (w.exec ((ci.installGhrIfNeeded w tr).1 ++ [buildCmd]) startCmd).err = none)
    (hlookup : (w.exec ((ci.installGhrIfNeeded w tr).1 ++ [buildCmd, startCmd]) lookupCmd).err
      = some e) :
    ci.Release w tr =
      ((ci.installGhrIfNeeded w tr).1 ++ [buildCmd, startCmd, lookupCmd, downCmd],
        Outcome.returned (some e)) := by
  rw [Release_run w tr hdeps htag, steps_unfold, hbuild, hstart, hlookup]
  simp

/-- Witness for C9 (amended): the lookup fails and the run ends with the
tear-down, returning the lookup error. -/
theorem Release_lookup_error_witness :
    ci.Release (scriptedWorld "v1.2.3" "tok-abc" [lookupCmd] "") [] =
      ([probeCmd] ++ [buildCmd, startCmd, lookupCmd, downCmd],
        Outcome.returned (some ⟨"docker failed"⟩)) :=
  Release_lookup_error (scriptedWorld "v1.2.3" "tok-abc" [lookupCmd] "") [] ⟨"docker failed"⟩
    (by decide) (by decide) (by decide) (by decide) (by decide)
